import Mathlib

/-!
Verification of the go-broker repository (mpe85/go-broker).

The development shallowly embeds `src/broker.go` (the primary implementation
file; the claims cite its line numbers).  The broker is an actor: a single
goroutine (`Broker.run`) owns the subscriber set and serializes all
structural mutations and broadcasts, while the public operations
(`Publish`, `Subscribe`, `Unsubscribe`, `Close`) communicate with it
through channels.

Embedding choices:
- Go durations (`time.Duration`, an int64 of nanoseconds) become `Int`.
- A client handle (`Client[T] = chan T` in broker.go) is identified by a
  `Nat`.  The observable state of its channel is kept in the broker state:
  `queueClosed h` records whether `close(h)` has run, and `delivered h`
  records, in order, the messages successfully sent on the channel
  (exactly the messages a reader of the handle can receive).
- The actor loop is a step function over events.  One `Event` is one fired
  case of the `select` in `Broker.run`.  `Event.deliver accept` is the
  dequeue-and-broadcast case; `accept c` is the nondeterministic timing
  outcome of the inner per-client `select`: `true` when client `c` reads
  within `broker.timeout`, `false` when the `time.After` branch fires.
- Go channel timing nondeterminism is an interleaving semantics: an
  operation that in Go could complete because the actor drains a queue
  concurrently is represented by the trace in which the actor event is
  ordered first.
- `panicked` records that some goroutine performed `close` on an already
  closed channel or a send on a closed channel, which panics and crashes
  the Go program; once `panicked` holds, the remaining fields are not
  meaningful (the process died) and the actor takes no further steps.
-/

namespace GoBroker

/-- Error values of the public operations.  broker.go declares only
`ErrTimeout` (line 39); the `safeSend` variant in src/unnamed/part_001
declares `ErrClosed`.  Both live in one type so that theorems can state
which of the two a given operation can actually produce. -/
inductive BrokerError where
  | timeout
  | closed
deriving DecidableEq, Repr

/-- Outcome of `Broker.Close` in broker.go, which returns no value: it
either returns normally or panics (`close` of an already closed channel). -/
inductive CloseOutcome where
  | ok
  | panicked
deriving DecidableEq, Repr

/-- One nanosecond, the unit of Go `time.Duration`. -/
def nanosecond : Int := 1

/-- Go `time.Second` expressed in nanoseconds. -/
def second : Int := 1000000000

/-- broker.go line 33: `const defaultTimeout = time.Second`. -/
def defaultTimeout : Int := second

/-- broker.go line 36: `const defaultBufferSize int = 10`. -/
def defaultBufferSize : Int := 10

/-- broker.go lines 26-29: the builder record `{timeout, bufferSize}`. -/
structure Builder where
  timeout : Int
  bufferSize : Int
deriving DecidableEq, Repr

/-- broker.go lines 112-114: `NewBuilder` returns
`Builder{defaultTimeout, defaultBufferSize}`. -/
def NewBuilder : Builder :=
  { timeout := defaultTimeout, bufferSize := defaultBufferSize }

/-- broker.go lines 124-127: `Timeout` has a value receiver, assigns the
`timeout` field of its copy and returns the copy. -/
def Builder.Timeout (builder : Builder) (timeout : Int) : Builder :=
  { builder with timeout := timeout }

/-- broker.go lines 130-133: `BufferSize` has a value receiver, assigns the
`bufferSize` field of its copy and returns the copy. -/
def Builder.BufferSize (builder : Builder) (bufferSize : Int) : Builder :=
  { builder with bufferSize := bufferSize }

/-- The broker together with the observable state of all channels involved.
Fields `clients`, `inbox`/`cap`, `stopClosed`, `timeout` embed the Go
struct fields `clients`, `messages` (a buffered channel: FIFO content plus
capacity), `stop` (closed or not) and `timeout` (broker.go lines 16-23).
`running` records that the `run` goroutine is still in its loop,
`panicked` that the program crashed on a channel misuse, and
`queueClosed`/`delivered` the per-handle channel state described in the
file header. -/
structure Broker (M : Type) where
  clients : List Nat
  inbox : List M
  cap : Int
  timeout : Int
  stopClosed : Bool
  running : Bool
  panicked : Bool
  queueClosed : Nat → Bool
  delivered : Nat → List M

/-- One fired `select` case of the actor loop `Broker.run`
(broker.go lines 82-109). -/
inductive Event where
  | stop
  | subscribe (h : Nat)
  | unsubscribe (h : Nat)
  | deliver (accept : Nat → Bool)

/-- One iteration of the actor loop `Broker.run` (broker.go lines 82-109).
A dead actor (loop returned, or program panicked) takes no step.  The
`stop` case fires only once `close(broker.stop)` has happened; it closes
every client channel left in the set and returns from the loop.  The
`subscribe` case inserts the handle into the `clients` map (idempotent on
an existing key).  The `unsubscribe` case deletes the handle from the map
and then closes its channel unconditionally, which panics when that
channel is already closed.  The `deliver` case dequeues one message and,
for each client in the set, sends it unless the per-client timeout fires;
a send to an already closed member channel panics. -/
def step {M : Type} (s : Broker M) (e : Event) : Broker M :=
  if s.running = false ∨ s.panicked = true then s else
  match e with
  | .stop =>
      if s.stopClosed = false then s
      else
        { s with
          running := false
          queueClosed := fun h => if h ∈ s.clients then true else s.queueClosed h
          panicked := s.panicked || s.clients.any fun c => s.queueClosed c }
  | .subscribe h =>
      { s with clients := if h ∈ s.clients then s.clients else s.clients ++ [h] }
  | .unsubscribe h =>
      { s with
        clients := s.clients.filter fun x => x != h
        queueClosed := fun x => if x = h then true else s.queueClosed x
        panicked := s.panicked || s.queueClosed h }
  | .deliver accept =>
      match s.inbox with
      | [] => s
      | m :: rest =>
          { s with
            inbox := rest
            panicked := s.panicked || s.clients.any fun c => s.queueClosed c
            delivered := fun c =>
              if c ∈ s.clients ∧ accept c = true ∧ s.queueClosed c = false
              then s.delivered c ++ [m] else s.delivered c }

/-- The actor processes a sequence of events in order. -/
def processTrace {M : Type} (s : Broker M) (tr : List Event) : Broker M :=
  tr.foldl step s

/-- broker.go lines 136-147: `Build` allocates the broker with an empty
client map, an open `stop` channel, a `messages` channel of capacity
`builder.bufferSize`, the configured timeout, and spawns the `run`
goroutine.  All client channels start open and empty. -/
def Builder.Build {M : Type} (builder : Builder) : Broker M :=
  { clients := []
    inbox := []
    cap := builder.bufferSize
    timeout := builder.timeout
    stopClosed := false
    running := true
    panicked := false
    queueClosed := fun _ => false
    delivered := fun _ => [] }

/-- broker.go lines 119-121: `New` is `NewBuilder().Build()`. -/
def New {M : Type} : Broker M :=
  (NewBuilder).Build

/-- broker.go lines 43-50: `Publish` selects between sending on the
buffered `messages` channel and `time.After(broker.timeout)`.  A buffered
send completes immediately whenever the buffer has room — whether or not
the actor is alive — and otherwise the timeout branch returns
`ErrTimeout`.  (The case where a full buffer is drained by the actor
during the wait is represented at the trace level by ordering the
`deliver` event before the publish.) -/
def Broker.Publish {M : Type} (s : Broker M) (m : M) :
    Option BrokerError × Broker M :=
  if (s.inbox.length : Int) < s.cap then
    (none, { s with inbox := s.inbox ++ [m] })
  else (some .timeout, s)

/-- broker.go lines 54-62: `Subscribe` makes a fresh channel (here: the
caller-chosen fresh identifier `h`) and selects between handing it to the
actor on the unbuffered `subscribingClients` channel and the timeout.
The rendezvous can happen only while the actor loop is alive;
`actorReady` is the nondeterministic timing outcome of the select in that
case.  On rendezvous the actor immediately runs its `subscribe` case. -/
def Broker.Subscribe {M : Type} (s : Broker M) (h : Nat) (actorReady : Bool) :
    Option BrokerError × Broker M :=
  if s.running = true ∧ s.panicked = false ∧ actorReady = true then
    (none, step s (.subscribe h))
  else (some .timeout, s)

/-- broker.go lines 66-73: `Unsubscribe` selects between handing the
handle to the actor on the unbuffered `unsubscribingClients` channel and
the timeout, exactly as `Subscribe` does. -/
def Broker.Unsubscribe {M : Type} (s : Broker M) (h : Nat) (actorReady : Bool) :
    Option BrokerError × Broker M :=
  if s.running = true ∧ s.panicked = false ∧ actorReady = true then
    (none, step s (.unsubscribe h))
  else (some .timeout, s)

/-- broker.go lines 77-79: `Close` is exactly `close(broker.stop)`.  It
returns nothing; closing the already closed `stop` channel panics (the
doc comment on line 76 states this). -/
def Broker.Close {M : Type} (s : Broker M) : CloseOutcome × Broker M :=
  if s.stopClosed = true then (.panicked, s)
  else (.ok, { s with stopClosed := true })

/-- Claim C8: a broker built without configuring any option has timeout
1 second and inbound buffer capacity 10, and for every configured builder
`Build` copies the configured buffer capacity into the capacity of the
inbound message queue and the configured timeout into the broker. -/
theorem build_uses_configuration :
    (NewBuilder.Build : Broker Nat).timeout = second ∧
    (NewBuilder.Build : Broker Nat).cap = 10 ∧
    ∀ (builder : Builder),
      (builder.Build : Broker Nat).cap = builder.bufferSize ∧
      (builder.Build : Broker Nat).timeout = builder.timeout := by
  refine ⟨rfl, rfl, fun builder => ⟨rfl, rfl⟩⟩

/-- Claim C9: each builder setter updates only its own field, so the two
setters commute: configuring timeout then buffer size yields the same
configuration as the opposite order, and each setter leaves the other
field unchanged. -/
theorem builder_setters_commute :
    ∀ (d n : Int),
      (NewBuilder.Timeout d).BufferSize n = { timeout := d, bufferSize := n } ∧
      (NewBuilder.BufferSize n).Timeout d = { timeout := d, bufferSize := n } ∧
      ∀ (b : Builder),
        ((b.Timeout d).BufferSize n = (b.BufferSize n).Timeout d) ∧
        (b.Timeout d).bufferSize = b.bufferSize ∧
        (b.BufferSize n).timeout = b.timeout := by
  intro d n
  exact ⟨rfl, rfl, fun b => ⟨rfl, rfl, rfl⟩⟩

/-- A broker built with the default configuration whose `Close` has been
called and whose actor has processed the shutdown signal. -/
def closedBroker : Broker Nat :=
  step (Broker.Close (New : Broker Nat)).2 .stop

/-- Claim C3, evaluated at the failing input: after `Close` and actor
shutdown, `Publish` on the empty ten-slot buffer still reports success
(the message is accepted into the dead buffer), and `Publish` in
broker.go can never report the Closed condition — contradicting the
claim and `TestClose` in broker_test.go, which asserts
`ErrorIs(broker.Publish(answer), ErrClosed)`. -/
theorem publish_after_close_reports_success :
    closedBroker.running = false ∧
    (closedBroker.Publish 42).1 = none ∧
    (closedBroker.Publish 42).1 ≠ some BrokerError.closed := by
  decide

/-- Claim C4, evaluated at the failing input: the first `Close` returns
normally, the actor then terminates its loop and closes the registered
subscriber queue — but a second `Close` (before or after the actor
reacts) executes `close(broker.stop)` on an already closed channel and
panics, exactly as the doc comment on broker.go line 76 states,
contradicting the claim and broker_test.go, which asserts that the second
`Close` returns ErrClosed. -/
theorem close_twice_panics :
    (Broker.Close ((New : Broker Nat).Subscribe 0 true).2).1 = CloseOutcome.ok ∧
    (step (Broker.Close ((New : Broker Nat).Subscribe 0 true).2).2 .stop).running = false ∧
    (step (Broker.Close ((New : Broker Nat).Subscribe 0 true).2).2 .stop).queueClosed 0 = true ∧
    (Broker.Close (Broker.Close ((New : Broker Nat).Subscribe 0 true).2).2).1 = CloseOutcome.panicked ∧
    (Broker.Close (step (Broker.Close ((New : Broker Nat).Subscribe 0 true).2).2 .stop)).1 = CloseOutcome.panicked := by
  decide

/-- Claim C5, evaluated at the failing input: once the broker has shut
down, nothing ever reads the unbuffered `subscribingClients` channel
again, so `Subscribe` always takes the `time.After` branch and returns
ErrTimeout — not the Closed condition the claim, Scenario D, and
`TestSubscribe` in broker_test.go require. -/
theorem subscribe_after_close_times_out :
    (closedBroker.Subscribe 5 true).1 = some BrokerError.timeout ∧
    (closedBroker.Subscribe 5 false).1 = some BrokerError.timeout ∧
    (closedBroker.Subscribe 5 true).1 ≠ some BrokerError.closed ∧
    (closedBroker.Subscribe 5 true).1 ≠ none := by
  decide

/-- Claim C6, evaluated at the failing input: subscribe handle 0, then
unsubscribe it twice.  The first request removes it and closes its
channel; the second request reaches the actor, whose unsubscribe case
runs `close(client)` unconditionally (broker.go line 97) on the already
closed channel, so the actor goroutine panics and the program crashes —
contradicting the claim (spec property P4) and the `NotPanics` assertion
on repeated `Unsubscribe` in the src/unnamed/part_003 test file. -/
theorem unsubscribe_twice_panics_actor :
    ((((New : Broker Nat).Subscribe 0 true).2.Unsubscribe 0 true).2.panicked = false) ∧
    ((((New : Broker Nat).Subscribe 0 true).2.Unsubscribe 0 true).2.queueClosed 0 = true) ∧
    ¬ 0 ∈ (((New : Broker Nat).Subscribe 0 true).2.Unsubscribe 0 true).2.clients ∧
    (((((New : Broker Nat).Subscribe 0 true).2.Unsubscribe 0 true).2.Unsubscribe 0 true).2.panicked = true) := by
  decide

/-- In a state whose in-set clients all have open channels, the
`broker.clients.any` scan for a closed channel yields `false`. -/
lemma any_closed_eq_false {M : Type} (s : Broker M)
    (hopen : ∀ c ∈ s.clients, s.queueClosed c = false) :
    (s.clients.any fun c => s.queueClosed c) = false := by
  by_contra hcon
  rw [Bool.not_eq_false, List.any_eq_true] at hcon
  obtain ⟨c, hc, hcc⟩ := hcon
  rw [hopen c hc] at hcc
  exact Bool.false_ne_true hcc

/-- Claim C1: when the actor dequeues a message, every subscriber in the
current set gets one bounded delivery attempt, independent of all other
subscribers: a subscriber that accepts within the timeout receives the
message (appended to its channel), one that does not accept has the
message dropped for it alone, non-members are untouched, the subscriber
set survives unchanged and the actor neither stops nor crashes.  The
final clause restates that the `Publish` call that submitted the message
reported success at submission time: acceptance into the inbound buffer
returns `nil` and the result does not depend on any later delivery
outcome. -/
theorem broadcast_delivers_independently {M : Type} (s : Broker M)
    (m : M) (rest : List M) (accept : Nat → Bool)
    (hrun : s.running = true) (hnp : s.panicked = false)
    (hinbox : s.inbox = m :: rest)
    (hopen : ∀ c ∈ s.clients, s.queueClosed c = false) :
    ((∀ c ∈ s.clients, accept c = true →
        (step s (.deliver accept)).delivered c = s.delivered c ++ [m]) ∧
     (∀ c ∈ s.clients, accept c = false →
        (step s (.deliver accept)).delivered c = s.delivered c) ∧
     (∀ c, c ∉ s.clients → (step s (.deliver accept)).delivered c = s.delivered c) ∧
     (step s (.deliver accept)).clients = s.clients ∧
     (step s (.deliver accept)).running = true ∧
     (step s (.deliver accept)).panicked = false ∧
     (step s (.deliver accept)).inbox = rest) ∧
    (∀ (t : Broker M) (x : M), (t.inbox.length : Int) < t.cap →
       (t.Publish x).1 = none ∧ (t.Publish x).2.inbox = t.inbox ++ [x]) := by
  have hany := any_closed_eq_false s hopen
  constructor
  · simp only [step, hrun, hnp, hinbox, Bool.true_eq_false, Bool.false_eq_true,
      or_self, if_false, ite_false, hany, Bool.or_false]
    refine ⟨?_, ?_, ?_, trivial, trivial, trivial, trivial⟩
    · intro c hc ha
      simp [hc, ha, hopen c hc]
    · intro c hc ha
      simp [ha]
    · intro c hc
      simp [hc]
  · intro t x ht
    constructor
    · simp [Broker.Publish, ht]
    · simp [Broker.Publish, ht]

/-- Sample state for the C1 witness: two subscribers, one pending
message, built through the public operations. -/
def broadcastSample : Broker Nat :=
  (((((New : Broker Nat).Subscribe 0 true).2).Subscribe 1 true).2.Publish 7).2

/-- Witness for claim C1 at `broadcastSample`: subscriber 0 accepts and
receives the message, subscriber 1 times out and gets nothing, and a
publish into a non-full buffer reports success. -/
theorem broadcast_delivers_independently_witness :
    (step broadcastSample (.deliver fun c => c == 0)).delivered 0 = [7] ∧
    (step broadcastSample (.deliver fun c => c == 0)).delivered 1 = [] ∧
    (step broadcastSample (.deliver fun c => c == 0)).clients = [0, 1] ∧
    (broadcastSample.Publish 9).1 = none := by
  have h := broadcast_delivers_independently broadcastSample 7 []
    (fun c => c == 0) rfl rfl rfl (by decide)
  refine ⟨?_, ?_, ?_, ?_⟩
  · have h0 := h.1.1 0 (by decide) rfl
    simpa using h0
  · have h1 := h.1.2.1 1 (by decide) rfl
    simpa using h1
  · exact h.1.2.2.2.1
  · exact (h.2 broadcastSample 9 (by decide)).1

/-- Claim C10: the actor processing an unsubscribe request for handle `h`
(whose channel is not yet closed) closes the channel of `h`, removes `h`
from the set, and changes nothing else: every other handle keeps its
membership and channel state, nobody loses delivered messages, the actor
keeps running without a panic, and when `h` was never in the set the set
itself is unchanged while the channel of `h` is still closed. -/
theorem unsubscribe_frame {M : Type} (s : Broker M) (h : Nat)
    (hrun : s.running = true) (hnp : s.panicked = false)
    (hfresh : s.queueClosed h = false) :
    (step s (.unsubscribe h)).queueClosed h = true ∧
    h ∉ (step s (.unsubscribe h)).clients ∧
    (step s (.unsubscribe h)).panicked = false ∧
    (step s (.unsubscribe h)).running = true ∧
    (step s (.unsubscribe h)).inbox = s.inbox ∧
    (∀ c, c ≠ h →
      ((c ∈ (step s (.unsubscribe h)).clients) ↔ c ∈ s.clients) ∧
      (step s (.unsubscribe h)).queueClosed c = s.queueClosed c) ∧
    (∀ c, (step s (.unsubscribe h)).delivered c = s.delivered c) ∧
    (h ∉ s.clients → (step s (.unsubscribe h)).clients = s.clients) := by
  simp only [step, hrun, hnp, Bool.true_eq_false, Bool.false_eq_true, or_self,
    if_false, ite_false, hfresh, Bool.or_false]
  refine ⟨by simp, ?_, trivial, trivial, trivial, ?_, fun c => trivial, ?_⟩
  · intro hmem
    rw [List.mem_filter] at hmem
    simp at hmem
  · intro c hc
    constructor
    · rw [List.mem_filter]
      simp [hc]
    · simp [hc]
  · intro hnot
    rw [List.filter_eq_self]
    intro a ha
    simp only [bne_iff_ne, ne_eq]
    rintro rfl
    exact hnot ha

/-- Sample state for the C10 witness: subscribers 0 and 1. -/
def unsubscribeSample : Broker Nat :=
  ((((New : Broker Nat).Subscribe 0 true).2).Subscribe 1 true).2

/-- Witness for claim C10 at `unsubscribeSample`: unsubscribing handle 0
closes its channel and removes it, while handle 1 keeps its membership
and open channel; unsubscribing the never-subscribed handle 5 leaves the
set unchanged but still closes channel 5. -/
theorem unsubscribe_frame_witness :
    (step unsubscribeSample (.unsubscribe 0)).queueClosed 0 = true ∧
    0 ∉ (step unsubscribeSample (.unsubscribe 0)).clients ∧
    ((1 ∈ (step unsubscribeSample (.unsubscribe 0)).clients) ↔ 1 ∈ unsubscribeSample.clients) ∧
    (step unsubscribeSample (.unsubscribe 0)).queueClosed 1 = false ∧
    (step unsubscribeSample (.unsubscribe 5)).clients = unsubscribeSample.clients ∧
    (step unsubscribeSample (.unsubscribe 5)).queueClosed 5 = true := by
  have h0 := unsubscribe_frame unsubscribeSample 0 rfl rfl rfl
  have h5 := unsubscribe_frame unsubscribeSample 5 rfl rfl rfl
  refine ⟨h0.1, h0.2.1, (h0.2.2.2.2.2.1 1 (by decide)).1,
    ?_, h5.2.2.2.2.2.2.2 (by decide), h5.1⟩
  have := (h0.2.2.2.2.2.1 1 (by decide)).2
  simpa using this

/-- The effect of one dequeue-and-broadcast iteration on every field,
in a live state whose in-set clients all have open channels. -/
lemma step_deliver_fields {M : Type} (s : Broker M) (a : Nat → Bool)
    (m : M) (rest : List M)
    (hrun : s.running = true) (hnp : s.panicked = false)
    (hinbox : s.inbox = m :: rest)
    (hopen : ∀ x ∈ s.clients, s.queueClosed x = false) :
    (step s (.deliver a)).running = true ∧
    (step s (.deliver a)).panicked = false ∧
    (step s (.deliver a)).inbox = rest ∧
    (step s (.deliver a)).clients = s.clients ∧
    (step s (.deliver a)).queueClosed = s.queueClosed ∧
    (∀ c, (step s (.deliver a)).delivered c =
      if c ∈ s.clients ∧ a c = true then s.delivered c ++ [m]
      else s.delivered c) := by
  have hany := any_closed_eq_false s hopen
  simp only [step, hrun, hnp, hinbox, Bool.true_eq_false, Bool.false_eq_true,
    or_self, if_false, ite_false, hany, Bool.or_false]
  refine ⟨trivial, trivial, trivial, trivial, trivial, ?_⟩
  intro c
  by_cases hc : c ∈ s.clients
  · by_cases ha : a c = true
    · simp [hc, ha, hopen c hc]
    · simp [hc, ha]
  · simp [hc]

/-- The subsequence of `ms` that client `c` accepts, with the timing
outcome of the broadcast pass of each message given positionally by
`as`. -/
def selected {M : Type} (c : Nat) : List M → List (Nat → Bool) → List M
  | m :: ms, a :: as =>
      if a c = true then m :: selected c ms as else selected c ms as
  | _, _ => []

/-- What `c` accepts is a subsequence of the broadcast messages, in the
same order. -/
lemma selected_sublist {M : Type} (c : Nat) :
    ∀ (ms : List M) (as : List (Nat → Bool)),
      List.Sublist (selected c ms as) ms := by
  intro ms
  induction ms with
  | nil => intro as; cases as <;> simp [selected]
  | cons m ms ih =>
      intro as
      cases as with
      | nil => simp [selected]
      | cons a as =>
          by_cases ha : a c = true
          · simpa [selected, ha] using (ih as).cons₂ m
          · simpa [selected, ha] using (ih as).cons m

/-- A client that accepts every broadcast pass selects every message. -/
lemma selected_all_accept {M : Type} (c : Nat) :
    ∀ (ms : List M) (as : List (Nat → Bool)),
      as.length = ms.length → (∀ a ∈ as, a c = true) →
      selected c ms as = ms := by
  intro ms
  induction ms with
  | nil => intro as _ _; cases as <;> simp [selected]
  | cons m ms ih =>
      intro as hlen hall
      cases as with
      | nil => simp at hlen
      | cons a as =>
          have ha : a c = true := hall a (by simp)
          have : selected c ms as = ms :=
            ih as (by simpa using hlen) fun b hb => hall b (by simp [hb])
          simp [selected, ha, this]

/-- Processing a run of broadcast iterations (no structural events) from
a live state appends to each subscriber exactly the messages it accepts,
in inbox order, and leaves the subscriber set, the actor and every
non-member untouched. -/
lemma deliver_trace_spec {M : Type} :
    ∀ (ms : List M) (as : List (Nat → Bool)) (s : Broker M),
      s.running = true → s.panicked = false → s.inbox = ms →
      (∀ x ∈ s.clients, s.queueClosed x = false) →
      as.length = ms.length →
      (processTrace s (as.map .deliver)).clients = s.clients ∧
      (processTrace s (as.map .deliver)).running = true ∧
      (processTrace s (as.map .deliver)).panicked = false ∧
      (∀ c, (processTrace s (as.map .deliver)).delivered c =
        if c ∈ s.clients then s.delivered c ++ selected c ms as
        else s.delivered c) := by
  intro ms
  induction ms with
  | nil =>
      intro as s hrun hnp hinbox hopen hlen
      have has : as = [] := List.length_eq_zero.mp (by simpa using hlen)
      subst has
      refine ⟨rfl, hrun, hnp, ?_⟩
      intro c
      by_cases hc : c ∈ s.clients <;> simp [processTrace, selected, hc]
  | cons m ms ih =>
      intro as s hrun hnp hinbox hopen hlen
      cases as with
      | nil => simp [hinbox] at hlen
      | cons a as =>
          obtain ⟨f1, f2, f3, f4, f5, f6⟩ :=
            step_deliver_fields s a m ms hrun hnp hinbox hopen
          have hopen1 : ∀ x ∈ (step s (.deliver a)).clients,
              (step s (.deliver a)).queueClosed x = false := by
            intro x hx
            rw [f5]
            exact hopen x (f4 ▸ hx)
          have hlen1 : as.length = ms.length := by
            simpa [hinbox] using hlen
          obtain ⟨g1, g2, g3, g4⟩ := ih as (step s (.deliver a)) f1 f2 f3 hopen1 hlen1
          have hfold :
              processTrace s ((a :: as).map Event.deliver)
                = processTrace (step s (.deliver a)) (as.map Event.deliver) := by
            simp [processTrace]
          refine ⟨by rw [hfold, g1, f4], by rw [hfold]; exact g2,
            by rw [hfold]; exact g3, ?_⟩
          intro c
          rw [hfold, g4 c, f4, f6 c]
          by_cases hc : c ∈ s.clients
          · by_cases ha : a c = true
            · simp [hc, ha, selected]
            · simp [hc, ha, selected]
          · simp [hc]

/-- Claim C2: while the subscriber set is stable (a run of the actor
processing only broadcast iterations), every subscriber receives exactly
the messages it accepts, appended to its channel in inbox (publish FIFO)
order; a subscriber that never induces a delivery timeout receives every
message exactly once in that order; what any subscriber receives is a
subsequence of the published sequence, so no subscriber ever observes its
own messages out of publish order; and the subscriber set itself is
unchanged. -/
theorem stable_set_fifo_delivery {M : Type} (s : Broker M)
    (as : List (Nat → Bool))
    (hrun : s.running = true) (hnp : s.panicked = false)
    (hopen : ∀ x ∈ s.clients, s.queueClosed x = false)
    (hlen : as.length = s.inbox.length) :
    (∀ c ∈ s.clients,
      (processTrace s (as.map .deliver)).delivered c
        = s.delivered c ++ selected c s.inbox as ∧
      List.Sublist (selected c s.inbox as) s.inbox ∧
      ((∀ a ∈ as, a c = true) →
        (processTrace s (as.map .deliver)).delivered c
          = s.delivered c ++ s.inbox)) ∧
    (∀ c, c ∉ s.clients →
      (processTrace s (as.map .deliver)).delivered c = s.delivered c) ∧
    (processTrace s (as.map .deliver)).clients = s.clients := by
  obtain ⟨g1, _, _, g4⟩ := deliver_trace_spec s.inbox as s hrun hnp rfl hopen hlen
  refine ⟨?_, ?_, g1⟩
  · intro c hc
    refine ⟨by rw [g4 c]; simp [hc], selected_sublist c s.inbox as, ?_⟩
    intro hall
    rw [g4 c]
    simp [hc, selected_all_accept c s.inbox as hlen hall]
  · intro c hc
    rw [g4 c]
    simp [hc]

/-- Sample state for the C2 witness: subscribers 0 and 1 with two pending
messages published in order. -/
def fifoSample : Broker Nat :=
  (((((((New : Broker Nat).Subscribe 0 true).2).Subscribe 1 true).2).Publish 3).2.Publish 4).2

/-- Witness for claim C2 at `fifoSample`: with subscriber 0 accepting
both broadcasts and subscriber 1 accepting only the first, subscriber 0
receives both messages in publish order, subscriber 1 receives its
accepted subsequence, a non-subscribed handle receives nothing, and the
subscriber set is unchanged. -/
theorem stable_set_fifo_delivery_witness :
    (processTrace fifoSample
        ([fun _ => true, fun c => c == 0].map .deliver)).delivered 0 = [3, 4] ∧
    (processTrace fifoSample
        ([fun _ => true, fun c => c == 0].map .deliver)).delivered 1 = [3] ∧
    (processTrace fifoSample
        ([fun _ => true, fun c => c == 0].map .deliver)).delivered 9 = [] ∧
    (processTrace fifoSample
        ([fun _ => true, fun c => c == 0].map .deliver)).clients = [0, 1] := by
  have h := stable_set_fifo_delivery fifoSample
    [fun _ => true, fun c => c == 0] rfl rfl (by decide) (by decide)
  refine ⟨?_, ?_, ?_, ?_⟩
  · rw [(h.1 0 (by decide)).1]; decide
  · rw [(h.1 1 (by decide)).1]; decide
  · rw [h.2.1 9 (by decide)]; decide
  · rw [h.2.2]; decide

/-- A step never resurrects a crashed program: if the state after a step
is panic-free, so was the state before it. -/
lemma step_panicked_mono {M : Type} (s : Broker M) (e : Event) :
    (step s e).panicked = false → s.panicked = false := by
  intro h
  by_cases hp : s.panicked = true
  · have hs : step s e = s := by simp [step, hp]
    rw [hs] at h
    exact h
  · simpa using hp

/-- A step never restarts a terminated actor: if the actor is in its loop
after a step, it was in its loop before it. -/
lemma step_running_mono {M : Type} (s : Broker M) (e : Event) :
    (step s e).running = true → s.running = true := by
  intro h
  by_cases hr : s.running = false
  · have hs : step s e = s := by simp [step, hr]
    rw [hs] at h
    exact h
  · simpa using hr

/-- Trace version of `step_panicked_mono`. -/
lemma trace_panicked_mono {M : Type} :
    ∀ (tr : List Event) (s : Broker M),
      (processTrace s tr).panicked = false → s.panicked = false := by
  intro tr
  induction tr with
  | nil => intro s h; exact h
  | cons e tr ih =>
      intro s h
      exact step_panicked_mono s e (ih (step s e) h)

/-- Trace version of `step_running_mono`. -/
lemma trace_running_mono {M : Type} :
    ∀ (tr : List Event) (s : Broker M),
      (processTrace s tr).running = true → s.running = true := by
  intro tr
  induction tr with
  | nil => intro s h; exact h
  | cons e tr ih =>
      intro s h
      exact step_running_mono s e (ih (step s e) h)

/-- A broadcast iteration changes neither the subscriber set nor the
channel-closed map, and keeps the actor in its loop. -/
lemma step_deliver_preserves {M : Type} (s : Broker M) (a : Nat → Bool)
    (hrun : s.running = true) (hnp : s.panicked = false) :
    (step s (.deliver a)).clients = s.clients ∧
    (step s (.deliver a)).queueClosed = s.queueClosed ∧
    (step s (.deliver a)).running = true := by
  rcases hbx : s.inbox with _ | ⟨m, rest⟩ <;>
    simp [step, hrun, hnp, hbx]

/-- Precondition of one event against the current state: `Subscribe`
always registers a handle backed by a freshly made channel, so a
subscribe event never carries a handle whose channel is already
closed. -/
def eventWF {M : Type} (s : Broker M) : Event → Bool
  | .subscribe h => !s.queueClosed h
  | _ => true

/-- Traces the real system can generate: every event satisfies `eventWF`
in the state at which the actor processes it. -/
def wfTrace {M : Type} : Broker M → List Event → Bool
  | _, [] => true
  | s, e :: tr => eventWF s e && wfTrace (step s e) tr

/-- Modelled from the spec wording of the section 3 invariant, for one
fixed handle: the subscribed-and-not-yet-unsubscribed part of
"subscribed and not yet unsubscribed/closed".  The "closed" disjunct of
the spec wording is stated directly on the broker state (via
`queueClosed`) in the theorem that uses this definition, because closure
is state the per-handle event history cannot see: at shutdown the actor
closes the channel of every remaining member without removing it from
the set.  `b` is whether the handle is a member at the start of the
trace; structural events for other handles and broadcast passes do not
affect it. -/
def specSubscribedNotRemoved (h : Nat) : Bool → List Event → Bool
  | b, [] => b
  | b, (.subscribe x) :: tr =>
      specSubscribedNotRemoved h (if x = h then true else b) tr
  | b, (.unsubscribe x) :: tr =>
      specSubscribedNotRemoved h (if x = h then false else b) tr
  | b, .stop :: tr => specSubscribedNotRemoved h b tr
  | b, (.deliver _) :: tr => specSubscribedNotRemoved h b tr

/-- Induction engine for claim C7, generalized over the start state. -/
lemma subscriber_inv_aux {M : Type} :
    ∀ (tr : List Event) (s : Broker M) (b : Bool) (h : Nat),
      wfTrace s tr = true →
      s.running = true → s.panicked = false →
      (processTrace s tr).running = true →
      (processTrace s tr).panicked = false →
      ((h ∈ s.clients) ↔ b = true) →
      ((h ∈ s.clients) → s.queueClosed h = false) →
      (((h ∈ (processTrace s tr).clients)
          ↔ specSubscribedNotRemoved h b tr = true) ∧
       ((h ∈ (processTrace s tr).clients)
          → (processTrace s tr).queueClosed h = false)) := by
  intro tr
  induction tr with
  | nil =>
      intro s b h _ _ _ _ _ hmem hq
      exact ⟨hmem, hq⟩
  | cons e tr ih =>
      intro s b h hwf hrun hnp hrunF hnpF hmem hq
      have hfold : processTrace s (e :: tr) = processTrace (step s e) tr := rfl
      rw [hfold] at hrunF hnpF ⊢
      rw [wfTrace, Bool.and_eq_true] at hwf
      obtain ⟨hg, hwf'⟩ := hwf
      have hrun1 : (step s e).running = true := trace_running_mono tr _ hrunF
      have hnp1 : (step s e).panicked = false := trace_panicked_mono tr _ hnpF
      cases e with
      | stop =>
          by_cases hstop : s.stopClosed = false
          · have hs : step s Event.stop = s := by
              simp [step, hrun, hnp, hstop]
            rw [hs] at hrunF hnpF hwf' ⊢
            exact ih s b h hwf' hrun hnp hrunF hnpF hmem hq
          · exfalso
            have hs : (step s Event.stop).running = false := by
              simp only [Bool.not_eq_false] at hstop
              simp [step, hrun, hnp, hstop]
            rw [hs] at hrun1
            exact Bool.false_ne_true hrun1
      | subscribe x =>
          have hfresh : s.queueClosed x = false := by
            simpa [eventWF] using hg
          have hcl : (step s (.subscribe x)).clients
              = if x ∈ s.clients then s.clients else s.clients ++ [x] := by
            simp [step, hrun, hnp]
          have hqc : (step s (.subscribe x)).queueClosed = s.queueClosed := by
            simp [step, hrun, hnp]
          have hmem1 : (h ∈ (step s (.subscribe x)).clients)
              ↔ (if x = h then true else b) = true := by
            rw [hcl]
            by_cases hxh : x = h
            · subst hxh
              by_cases hx : x ∈ s.clients <;> simp [hx]
            · by_cases hx : x ∈ s.clients
              · simpa [hx, hxh] using hmem
              · rw [if_neg hx, if_neg hxh]
                simp only [List.mem_append, List.mem_singleton]
                constructor
                · rintro (hl | hr)
                  · exact hmem.mp hl
                  · exact absurd hr.symm hxh
                · intro hb
                  exact Or.inl (hmem.mpr hb)
          have hq1 : (h ∈ (step s (.subscribe x)).clients)
              → (step s (.subscribe x)).queueClosed h = false := by
            intro hmm
            rw [hqc]
            by_cases hxh : x = h
            · subst hxh; exact hfresh
            · refine hq ?_
              rw [hcl] at hmm
              by_cases hx : x ∈ s.clients
              · rwa [if_pos hx] at hmm
              · rw [if_neg hx] at hmm
                rcases List.mem_append.mp hmm with hl | hr
                · exact hl
                · exact absurd (List.mem_singleton.mp hr).symm hxh
          have := ih (step s (.subscribe x)) (if x = h then true else b) h
            hwf' hrun1 hnp1 hrunF hnpF hmem1 hq1
          simpa [specSubscribedNotRemoved] using this
      | unsubscribe x =>
          have hcl : (step s (.unsubscribe x)).clients
              = s.clients.filter fun y => y != x := by
            simp [step, hrun, hnp]
          have hqc : (step s (.unsubscribe x)).queueClosed
              = fun y => if y = x then true else s.queueClosed y := by
            simp [step, hrun, hnp]
          have hmem1 : (h ∈ (step s (.unsubscribe x)).clients)
              ↔ (if x = h then false else b) = true := by
            rw [hcl]
            by_cases hxh : x = h
            · subst hxh
              simp [List.mem_filter]
            · rw [if_neg hxh]
              rw [List.mem_filter]
              constructor
              · intro hf
                exact hmem.mp hf.1
              · intro hb
                refine ⟨hmem.mpr hb, ?_⟩
                simp only [bne_iff_ne, ne_eq]
                intro heq
                exact hxh heq.symm
          have hq1 : (h ∈ (step s (.unsubscribe x)).clients)
              → (step s (.unsubscribe x)).queueClosed h = false := by
            intro hmm
            simp only [hqc]
            by_cases hxh : h = x
            · exfalso
              rw [hcl, List.mem_filter] at hmm
              have := hmm.2
              simp [hxh] at this
            · rw [if_neg hxh]
              refine hq ?_
              rw [hcl, List.mem_filter] at hmm
              exact hmm.1
          have := ih (step s (.unsubscribe x)) (if x = h then false else b) h
            hwf' hrun1 hnp1 hrunF hnpF hmem1 hq1
          simpa [specSubscribedNotRemoved] using this
      | deliver a =>
          obtain ⟨d1, d2, _⟩ := step_deliver_preserves s a hrun hnp
          have hmem1 : (h ∈ (step s (.deliver a)).clients) ↔ b = true := by
            rw [d1]; exact hmem
          have hq1 : (h ∈ (step s (.deliver a)).clients)
              → (step s (.deliver a)).queueClosed h = false := by
            intro hmm
            rw [d2]
            exact hq (d1 ▸ hmm)
          have := ih (step s (.deliver a)) b h
            hwf' hrun1 hnp1 hrunF hnpF hmem1 hq1
          simpa [specSubscribedNotRemoved] using this

/-- Claim C7 fails at the shutdown step, which the claim includes: after
subscribing handle 0, calling `Close` and letting the actor process the
stop signal (broker.go lines 85-90), the channel of handle 0 is closed
and the loop has terminated, yet handle 0 still appears in the
subscriber set — the `delete` that accompanies closure in the
unsubscribe case has no counterpart in the stop case, so "in the set iff
subscribed and not yet unsubscribed or closed" is violated: the handle
is closed and still a member. -/
theorem subscriber_set_invariant_cex :
    (0 ∈ (step (Broker.Close ((New : Broker Nat).Subscribe 0 true).2).2 .stop).clients) ∧
    (step (Broker.Close ((New : Broker Nat).Subscribe 0 true).2).2 .stop).queueClosed 0 = true ∧
    (step (Broker.Close ((New : Broker Nat).Subscribe 0 true).2).2 .stop).running = false := by
  decide

/-- Claim C7 as amended: every step the actor takes while it remains in
its loop preserves the invariant — along every well-formed event
sequence (subscribe requests carry freshly made channels), as long as
the actor is in its loop and the program has not crashed, a handle is in
the subscriber set exactly when it has been subscribed, has not since
been unsubscribed, and its channel is not closed.  The shutdown step is
the exception the counterexample exhibits: it closes the channel of
every remaining member but leaves the now-defunct set populated.  Stated
over the whole trace from a freshly built broker, which is the induction
over single steps. -/
theorem subscriber_set_invariant {M : Type} (tr : List Event) (h : Nat)
    (hwf : wfTrace (New : Broker M) tr = true)
    (hrun : (processTrace (New : Broker M) tr).running = true)
    (hnp : (processTrace (New : Broker M) tr).panicked = false) :
    (h ∈ (processTrace (New : Broker M) tr).clients)
      ↔ (specSubscribedNotRemoved h false tr = true ∧
         (processTrace (New : Broker M) tr).queueClosed h = false) := by
  have haux := subscriber_inv_aux tr (New : Broker M) false h hwf rfl rfl hrun hnp
    (by simp [New, Builder.Build])
    (by intro hx; simp [New, Builder.Build] at hx)
  constructor
  · intro hm
    exact ⟨haux.1.mp hm, haux.2 hm⟩
  · intro hs
    exact haux.1.mpr hs.1

/-- Sample trace for the C7 witness: subscribe handles 0 and 1, run one
broadcast pass, then unsubscribe handle 0. -/
def invariantTrace : List Event :=
  [.subscribe 0, .subscribe 1, .deliver fun _ => true, .unsubscribe 0]

/-- Witness for claim C7 (as amended) at `invariantTrace`: handle 1
(subscribed, never unsubscribed, channel open) is in the set; handle 0
(unsubscribed) is not in the set. -/
theorem subscriber_set_invariant_witness :
    (1 ∈ (processTrace (New : Broker Nat) invariantTrace).clients) ∧
    ¬ 0 ∈ (processTrace (New : Broker Nat) invariantTrace).clients ∧
    (processTrace (New : Broker Nat) invariantTrace).queueClosed 1 = false := by
  have h1 := subscriber_set_invariant (M := Nat) invariantTrace 1
    (by decide) (by decide) (by decide)
  have h0 := subscriber_set_invariant (M := Nat) invariantTrace 0
    (by decide) (by decide) (by decide)
  have hm1 : 1 ∈ (processTrace (New : Broker Nat) invariantTrace).clients :=
    h1.mpr ⟨by decide, by decide⟩
  refine ⟨hm1, ?_, (h1.mp hm1).2⟩
  intro hc
  exact absurd (h0.mp hc).1 (by decide)

end GoBroker
